import Mathlib

/-!
Verification of `combine.py`, a utility that merges several Vega-Lite
visualization HTML files into one dashboard page.

Strings of the Python program are modelled as `List Char`; the file system
is modelled as a total function from paths to a read result; the composer's
console output is modelled as an explicit list of printed lines; exceptions
are modelled with `Except`.
-/

set_option maxRecDepth 2048

namespace Combine

/-- Strings of the Python program are modelled as lists of characters. -/
abbrev Str := List Char

/-- Boolean test: does the first list start the second one?  Executable
companion of `List.IsPrefix`. -/
def isPfx : Str → Str → Bool
  | [], _ => true
  | _ :: _, [] => false
  | a :: as, b :: bs => a == b && isPfx as bs

/-- Index of the first position at which `p` occurs inside `s`
(`none` when `p` occurs nowhere).  This is the search semantics of
`re.search` for a fixed literal pattern: leftmost occurrence. -/
def findSub (p : Str) : Str → Option Nat
  | [] => if isPfx p [] then some 0 else none
  | c :: rest => if isPfx p (c :: rest) then some 0 else (findSub p rest).map (· + 1)

/-- Literal head of the extraction pattern `var spec = ({.*?});` of
combine.py line 13: the text up to and including the opening brace of the
captured group. -/
def specPat : Str := "var spec = \x7b".toList

/-- Literal terminator of the extraction pattern: the closing brace of the
captured group followed by the semicolon. -/
def specTerm : Str := "\x7d;".toList

/-- Embedding of `extract_spec` (combine.py lines 11-14):
`re.search` with the pattern above returns the leftmost match; because the
pattern starts with the fixed literal text `var spec = ` followed by a brace,
the leftmost match starts at the first occurrence of that literal, and the
non-greedy `.*?` (with `re.DOTALL`: any characters, newlines included) ends
at the first following occurrence of the two-character terminator.  If the
literal head never occurs, or no terminator follows it, then no later start
position can match either (a terminator occurring after a later start also
occurs after the first start), so the search fails and the two-character
empty-object text is returned. -/
def extract_spec (html_content : Str) : Str :=
  match findSub specPat html_content with
  | none => "\x7b\x7d".toList
  | some p =>
    match findSub specTerm (html_content.drop (p + specPat.length)) with
    | none => "\x7b\x7d".toList
    | some q => '\x7b' :: ((html_content.drop (p + specPat.length)).take q ++ ['\x7d'])

/-- Result of `open(file_path, 'r', encoding='utf-8')` followed by
`f.read()` in combine.py lines 43-44.  `ok` is a successful read,
`notFound` is a `FileNotFoundError` (the only exception caught at line 48),
and `readErr` is any other exception a read can raise (for example a
`PermissionError` or a `UnicodeDecodeError`), which line 48 does not
catch. -/
inductive ReadResult where
  | ok (content : Str)
  | notFound
  | readErr
deriving DecidableEq

/-- The file system, modelled as a total map from paths to read results. -/
abbrev FileSys := Str → ReadResult

/-- Default titles of combine.py lines 29-33, used when `titles` is
`None`. -/
def defaultTitles : List Str :=
  ["📊 Expenditure and Contribution Analysis".toList,
   "🗺️ Geographic Distribution by County".toList,
   "📈 Additional Analysis".toList]

/-- Title synthesized at combine.py line 37 when the title list is shorter
than the file list: `f"📊 Visualization {len(titles) + 1}"`, with `k` the
1-based position of the appended entry. -/
def visLabel (k : Nat) : Str := "📊 Visualization ".toList ++ (Nat.repr k).toList

/-- Embedding of the while-loop of combine.py lines 36-37, with the number
of remaining iterations made explicit: each iteration appends one
synthesized title, so the loop runs exactly `n - ts.length` times. -/
def padTitlesGo : Nat → List Str → List Str
  | 0, ts => ts
  | k + 1, ts => padTitlesGo k (ts ++ [visLabel (ts.length + 1)])

/-- The title list after the while-loop of combine.py lines 36-37:
`while len(titles) < len(file_paths): titles.append(...)`. -/
def padTitles (ts : List Str) (n : Nat) : List Str := padTitlesGo (n - ts.length) ts

/-- The slice `titles[:len(file_paths)]` of combine.py line 54, applied to
the padded title list: the title list actually used to build the output. -/
def effectiveTitles (ts : List Str) (n : Nat) : List Str := (padTitles ts n).take n

/-- Final value of the caller's `titles` list object after
`merge_html_files` returns (or raises): `list.append` at combine.py line 37
mutates the list object passed by the caller in place, so after the call
the caller observes the padded list. -/
def titlesAfterCall (ts : List Str) (file_paths : List Str) : List Str :=
  padTitles ts file_paths.length

/-- Status line printed at combine.py line 47 for the 0-based index `i`:
`f"✓ 已读取文件 {i+1}: {file_path}"`. -/
def successLine (i : Nat) (path : Str) : Str :=
  "✓ 已读取文件 ".toList ++ (Nat.repr (i + 1)).toList ++ ": ".toList ++ path

/-- Warning line printed at combine.py line 49 for a missing file:
`f"✗ 警告: 找不到文件 {file_path}"`. -/
def warnLine (path : Str) : Str := "✗ 警告: 找不到文件 ".toList ++ path

/-- Summary line printed at combine.py line 197:
`f"\n✅ 成功合并 {len(file_paths)} 个HTML文件到: {output_path}"`. -/
def summaryLine (n : Nat) (output_path : Str) : Str :=
  "\n✅ 成功合并 ".toList ++ (Nat.repr n).toList ++ " 个HTML文件到: ".toList ++ output_path

/-- One iteration of the per-file loop of combine.py lines 41-50: read the
file, extract its spec and print a success line; on `FileNotFoundError`
print a warning and record the placeholder; any other exception propagates.
Returns the recorded spec together with the printed line. -/
def processFile (fs : FileSys) (i : Nat) (path : Str) : Except Unit (Str × Str) :=
  match fs path with
  | .ok content => .ok (extract_spec content, successLine i path)
  | .notFound => .ok ("\x7b\x7d".toList, warnLine path)
  | .readErr => .error ()

/-- The whole per-file loop of combine.py lines 40-50, starting at 0-based
index `i`: the list of (spec, printed line) pairs, or the propagated
exception. -/
def collectFrom (fs : FileSys) : Nat → List Str → Except Unit (List (Str × Str))
  | _, [] => .ok []
  | i, path :: rest =>
    match processFile fs i path with
    | .error e => .error e
    | .ok row =>
      match collectFrom fs (i + 1) rest with
      | .error e => .error e
      | .ok rows => .ok (row :: rows)

/-- One visualization block, combine.py lines 55-61 (`i` is the 0-based
index; the displayed number is `i+1`). -/
def visDivPiece (i : Nat) (title : Str) : Str :=
  "\n    <!-- 第".toList ++ (Nat.repr (i + 1)).toList
    ++ "个可视化 -->\n    <div class=\"visualization\">\n      <div class=\"vis-title\">".toList
    ++ title
    ++ "</div>\n      <div id=\"vis".toList ++ (Nat.repr (i + 1)).toList
    ++ "\"></div>\n    </div>\n    ".toList

/-- The accumulation loop for `vis_divs`, combine.py lines 53-61. -/
def visDivsAux : Nat → List Str → Str
  | _, [] => []
  | i, t :: ts => visDivPiece i t ++ visDivsAux (i + 1) ts

/-- One specification declaration, combine.py line 66:
`f"      var spec{i+1} = {spec};\n"`. -/
def declPiece (i : Nat) (spec : Str) : Str :=
  "      var spec".toList ++ (Nat.repr (i + 1)).toList ++ " = ".toList ++ spec ++ ";\n".toList

/-- The accumulation loop for `spec_declarations`, combine.py lines
64-66. -/
def specDeclsAux : Nat → List Str → Str
  | _, [] => []
  | i, s :: ss => declPiece i s ++ specDeclsAux (i + 1) ss

/-- One render invocation, combine.py lines 71-76 (`i` is the 0-based
index). -/
def renderPiece (i : Nat) : Str :=
  "\n      // 渲染第".toList ++ (Nat.repr (i + 1)).toList
    ++ "个图表\n      const el".toList ++ (Nat.repr (i + 1)).toList
    ++ " = document.getElementById(\x27vis".toList ++ (Nat.repr (i + 1)).toList
    ++ "\x27);\n      vegaEmbed(\"#vis".toList ++ (Nat.repr (i + 1)).toList
    ++ "\", spec".toList ++ (Nat.repr (i + 1)).toList
    ++ ", embedOpt)\n        .catch(error => showError(el".toList ++ (Nat.repr (i + 1)).toList
    ++ ", error));\n      ".toList

/-- The accumulation loop for `render_code`, combine.py lines 69-76:
`for i in range(len(specs))`, here with `k` iterations left. -/
def renderAux : Nat → Nat → Str
  | _, 0 => []
  | i, k + 1 => renderPiece i ++ renderAux (i + 1) k

/-- Embedding of Python's `sep.join(pieces)`. -/
def joinSep (sep : Str) : List Str → Str
  | [] => []
  | [x] => x
  | x :: y :: rest => x ++ sep ++ joinSep sep (y :: rest)

/-- One selector of the `vega_embed_styles` comprehension, combine.py line
79; it is invoked with `i` running over `range(1, len(specs) + 1)` and uses
`i+1`, so the generated selectors are `#vis2 .. #vis{N+1}`. -/
def styleSel (i : Nat) : Str :=
  "#vis".toList ++ (Nat.repr (i + 1)).toList ++ ".vega-embed".toList

/-- One selector pair of the `vega_embed_details` comprehension, combine.py
line 80 (same `i+1` indexing as `styleSel`). -/
def detailSel (i : Nat) : Str :=
  "#vis".toList ++ (Nat.repr (i + 1)).toList
    ++ ".vega-embed details,\n    #vis".toList ++ (Nat.repr (i + 1)).toList
    ++ ".vega-embed details summary".toList

/-- `vega_embed_styles`, combine.py line 79. -/
def vegaEmbedStyles (n : Nat) : Str :=
  joinSep (", ".toList) (((List.range n).map (· + 1)).map styleSel)

/-- `vega_embed_details`, combine.py line 80. -/
def vegaEmbedDetails (n : Nat) : Str :=
  joinSep (", ".toList) (((List.range n).map (· + 1)).map detailSel)

/-- Static text of the `merged_html` f-string (combine.py lines 83-191)
from the start up to the `vega_embed_styles` hole. -/
def htmlPartA : Str :=
  ("<!DOCTYPE html>\n<html>\n<head>\n  <meta charset=\"UTF-8\">\n  <title>Michigan Political Finance Dashboard</title>\n  <style>\n    body \x7b\n      font-family: Arial, sans-serif;\n      margin: 0;\n      padding: 20px;\n      background-color: #f5f5f5;\n    \x7d\n    \n    .container \x7b\n      max-width: 1400px;\n      margin: 0 auto;\n      background-color: white;\n      padding: 20px;\n      box-shadow: 0 2px 4px rgba(0,0,0,0.1);\n    \x7d\n    \n    h1 \x7b\n      text-align: center;\n      color: #333;\n      margin-bottom: 10px;\n      font-size: 28px;\n    \x7d\n    \n    .subtitle \x7b\n      text-align: center;\n      color: #666;\n      margin-bottom: 30px;\n      font-size: 14px;\n    \x7d\n    \n    .visualization \x7b\n      margin-bottom: 40px;\n      border: 1px solid #ddd;\n      padding: 20px;\n      border-radius: 5px;\n      background-color: #fafafa;\n    \x7d\n    \n    .visualization:last-child \x7b\n      margin-bottom: 0;\n    \x7d\n    \n    .vis-title \x7b\n      font-size: 20px;\n      font-weight: bold;\n      color: #555;\n      margin-bottom: 15px;\n      padding-bottom: 10px;\n      border-bottom: 2px solid #007bff;\n    \x7d\n\n    ").toList

/-- Static text between the `vega_embed_styles` and `vega_embed_details`
holes of the `merged_html` f-string. -/
def htmlPartB : Str :=
  (" \x7b\n      width: 100%;\n      display: flex;\n    \x7d\n\n    ").toList

/-- Static text between the `vega_embed_details` and `vis_divs` holes of
the `merged_html` f-string. -/
def htmlPartC : Str :=
  (" \x7b\n      position: relative;\n    \x7d\n    \n    .footer \x7b\n      text-align: center;\n      margin-top: 30px;\n      padding-top: 20px;\n      border-top: 1px solid #ddd;\n      color: #999;\n      font-size: 12px;\n    \x7d\n  </style>\n  <script type=\"text/javascript\" src=\"https://cdn.jsdelivr.net/npm/vega@5\"></script>\n  <script type=\"text/javascript\" src=\"https://cdn.jsdelivr.net/npm/vega-lite@5.20.1\"></script>\n  <script type=\"text/javascript\" src=\"https://cdn.jsdelivr.net/npm/vega-embed@6\"></script>\n</head>\n<body>\n  <div class=\"container\">\n    <h1>Michigan Political Finance Analysis Dashboard</h1>\n    <div class=\"subtitle\">Comprehensive visualization of political finance data</div>\n    ").toList

/-- Static text between the `vis_divs` and `spec_declarations` holes of the
`merged_html` f-string. -/
def htmlPartD : Str :=
  ("\n    <div class=\"footer\">\n      Generated with Vega-Lite | Data visualization dashboard\n    </div>\n  </div>\n\n  <script>\n    (function(vegaEmbed) \x7b\n      // 图表规范\n").toList

/-- Static text between the `spec_declarations` and `render_code` holes of
the `merged_html` f-string. -/
def htmlPartE : Str :=
  ("\n      \n      var embedOpt = \x7b\"mode\": \"vega-lite\"\x7d;\n\n      function showError(el, error)\x7b\n          el.innerHTML = (\x27<div style=\"color:red;\">\x27\n                          + \x27<p>JavaScript Error: \x27 + error.message + \x27</p>\x27\n                          + \"<p>This usually means there\x27s a typo in your chart specification. \"\n                          + \"See the javascript console for the full traceback.</p>\"\n                          + \x27</div>\x27);\n          throw error;\n      \x7d\n      ").toList

/-- Static text of the `merged_html` f-string after the `render_code`
hole. -/
def htmlPartF : Str :=
  ("\n    \x7d)(vegaEmbed);\n\n  </script>\n</body>\n</html>").toList

/-- The assembled `merged_html` text of combine.py lines 83-191, as a
function of the effective (padded and truncated) title list and the
extracted specs.  The fragment holes are filled exactly as in the source:
`vega_embed_styles`, `vega_embed_details` and `render_code` use
`len(specs)`, `vis_divs` uses `titles[:len(file_paths)]` (passed here as
`titlesN`), `spec_declarations` uses `specs`. -/
def merged_html (titlesN : List Str) (specs : List Str) : Str :=
  htmlPartA ++ vegaEmbedStyles specs.length
    ++ htmlPartB ++ vegaEmbedDetails specs.length
    ++ htmlPartC ++ visDivsAux 0 titlesN
    ++ htmlPartD ++ specDeclsAux 0 specs
    ++ htmlPartE ++ renderAux 0 specs.length
    ++ htmlPartF

/-- Embedding of `merge_html_files` (combine.py lines 17-197).  The
returned pair is the text written to `output_path` together with the list
of printed lines, in print order; a read exception other than
`FileNotFoundError` propagates as `Except.error` (nothing is written in
that case). -/
def merge_html_files (fs : FileSys) (file_paths : List Str) (output_path : Str)
    (titles : Option (List Str)) : Except Unit (Str × List Str) :=
  let titles0 := match titles with
    | none => defaultTitles
    | some ts => ts
  match collectFrom fs 0 file_paths with
  | .error e => .error e
  | .ok rows =>
    .ok (merged_html (effectiveTitles titles0 file_paths.length) (rows.map Prod.fst),
         rows.map Prod.snd ++ [summaryLine file_paths.length output_path])

/-- Concrete input for the truncation scenario: raw text
`var spec = {"a": "x};y"};` whose embedded object literal contains the
terminator sequence inside a nested string before its true end. -/
def doc6 : Str := "var spec = \x7b\"a\": \"x\x7d;y\"\x7d;".toList

/-- Raw text of the first document of the round-trip scenario. -/
def doc8a : Str :=
  ("<html><body><script>var spec = \x7b\"a\": 1\x7d;</script></body></html>").toList

/-- Raw text of the second document of the round-trip scenario. -/
def doc8b : Str :=
  ("<html><body><script>var spec = \x7b\"b\": [1,2,3]\x7d;</script></body></html>").toList

/-- Paths of the round-trip scenario. -/
def paths8 : List Str := ["chart1.html".toList, "chart2.html".toList]

/-- File system of the round-trip scenario. -/
def fs8 : FileSys := fun p =>
  if p = "chart1.html".toList then .ok doc8a
  else if p = "chart2.html".toList then .ok doc8b
  else .notFound

/-- The output document of the round-trip scenario (default titles). -/
def out8 : Str :=
  match merge_html_files fs8 paths8 ("index.html".toList) none with
  | .ok (o, _) => o
  | .error _ => []

/-- Document content used by the recoverable-failure scenario. -/
def doc4 : Str := "var spec = \x7b\"x\": 0\x7d;".toList

/-- File system of the recoverable-failure scenario: the second path is
missing, the rest readable. -/
def fs4a : FileSys := fun p =>
  if p = "b.html".toList then .notFound else .ok doc4

/-- Alternative file system of the recoverable-failure scenario: identical
to `fs4a` except that the second path is readable. -/
def fs4b : FileSys := fun p =>
  if p = "b.html".toList then .ok doc4 else .ok doc4

/-- Paths of the recoverable-failure scenario. -/
def paths4 : List Str := ["a.html".toList, "b.html".toList]

/-- File system used by the determinism witness. -/
def fs7a : FileSys := fun _ => ReadResult.notFound

/-- A second, syntactically different file system that agrees with `fs7a`
on every path. -/
def fs7b : FileSys := fun p => if p = p then ReadResult.notFound else ReadResult.readErr

/-- Paths of the missing-single-document scenario. -/
def paths5 : List Str := ["missing.html".toList]

/-- File system of the missing-single-document scenario: nothing exists. -/
def fs5 : FileSys := fun _ => ReadResult.notFound

/-- Output document of the missing-single-document scenario. -/
def out5 : Str := merged_html (effectiveTitles defaultTitles 1) ["\x7b\x7d".toList]

/-- Printed lines of the missing-single-document scenario. -/
def logs5 : List Str :=
  [warnLine ("missing.html".toList), summaryLine 1 ("merged.html".toList)]

/-! ## Lemmas about the search primitive -/

theorem isPfx_iff (p s : Str) : isPfx p s = true ↔ p <+: s := by
  induction p generalizing s with
  | nil => simp [isPfx]
  | cons a as ih =>
    cases s with
    | nil => simp [isPfx]
    | cons b bs => simp [isPfx, List.cons_prefix_cons, ih]

theorem findSub_eq_some (p : Str) (s : Str) (j : Nat)
    (hj : p <+: s.drop j) (hmin : ∀ i, i < j → ¬ p <+: s.drop i) :
    findSub p s = some j := by
  induction j generalizing s with
  | zero =>
    cases s with
    | nil => simp only [findSub]; rw [if_pos ((isPfx_iff _ _).mpr (by simpa using hj))]
    | cons c rest =>
      simp only [findSub]
      rw [if_pos ((isPfx_iff _ _).mpr (by simpa using hj))]
  | succ j ih =>
    cases s with
    | nil =>
      exact absurd (by simpa using hj) (by simpa using hmin 0 (Nat.succ_pos j))
    | cons c rest =>
      simp only [findSub]
      rw [if_neg (by
        intro hcontra
        exact hmin 0 (Nat.succ_pos j) (by simpa using (isPfx_iff _ _).mp hcontra))]
      have hrec : findSub p rest = some j := by
        apply ih rest (by simpa using hj)
        intro i hi
        simpa using hmin (i + 1) (Nat.succ_lt_succ hi)
      rw [hrec]; rfl

theorem findSub_some (p s : Str) (j : Nat) (h : findSub p s = some j) :
    p <+: s.drop j := by
  induction s generalizing j with
  | nil =>
    simp only [findSub] at h
    split at h
    next hpf =>
      cases h
      rw [List.drop_nil]
      exact (isPfx_iff _ _).mp hpf
    next => cases h
  | cons c rest ih =>
    simp only [findSub] at h
    split at h
    next hpf =>
      cases h
      exact (isPfx_iff _ _).mp hpf
    next =>
      obtain ⟨j', hj', rfl⟩ := Option.map_eq_some'.mp h
      simpa using ih j' hj'

theorem extract_spec_ne_nil (t : Str) : extract_spec t ≠ [] := by
  unfold extract_spec
  split
  · simp
  · split <;> simp

/-! ## Lemmas about title padding -/

theorem padTitlesGo_length (k : Nat) (ts : List Str) :
    (padTitlesGo k ts).length = ts.length + k := by
  induction k generalizing ts with
  | zero => rfl
  | succ k ih =>
    show (padTitlesGo k (ts ++ [visLabel (ts.length + 1)])).length = ts.length + (k + 1)
    rw [ih, List.length_append]
    simp; omega

theorem padTitlesGo_getD_lt (k : Nat) (ts : List Str) (i : Nat) (h : i < ts.length) :
    (padTitlesGo k ts).getD i [] = ts.getD i [] := by
  induction k generalizing ts with
  | zero => rfl
  | succ k ih =>
    show (padTitlesGo k (ts ++ [visLabel (ts.length + 1)])).getD i [] = ts.getD i []
    rw [ih _ (by simp; omega)]
    exact List.getD_append _ _ _ _ h

theorem padTitlesGo_getD_ge (k : Nat) (ts : List Str) (i : Nat)
    (h1 : ts.length ≤ i) (h2 : i < ts.length + k) :
    (padTitlesGo k ts).getD i [] = visLabel (i + 1) := by
  induction k generalizing ts with
  | zero => omega
  | succ k ih =>
    show (padTitlesGo k (ts ++ [visLabel (ts.length + 1)])).getD i [] = visLabel (i + 1)
    rcases Nat.eq_or_lt_of_le h1 with heq | hlt
    · rw [padTitlesGo_getD_lt _ _ _ (by simp; omega)]
      rw [List.getD_eq_getD_get?, ← heq, List.get?_concat_length]
      rfl
    · rw [ih (ts ++ [visLabel (ts.length + 1)]) (by simp; omega) (by simp; omega)]

theorem padTitlesGo_isPrefix (k : Nat) (ts : List Str) : ts <+: padTitlesGo k ts := by
  induction k generalizing ts with
  | zero => exact List.prefix_refl ts
  | succ k ih =>
    exact (List.prefix_append ts [visLabel (ts.length + 1)]).trans
      (ih (ts ++ [visLabel (ts.length + 1)]))

theorem effectiveTitles_length (ts : List Str) (n : Nat) :
    (effectiveTitles ts n).length = n := by
  unfold effectiveTitles padTitles
  rw [List.length_take, padTitlesGo_length]
  omega

theorem getD_take (l : List Str) (i n : Nat) (h : i < n) :
    (l.take n).getD i [] = l.getD i [] := by
  rw [List.getD_eq_getD_get?, List.getD_eq_getD_get?, List.get?_take h]

/-! ## Lemmas about the per-file loop -/

theorem collectFrom_length (fs : FileSys) (i : Nat) (paths : List Str)
    (rows : List (Str × Str)) (h : collectFrom fs i paths = .ok rows) :
    rows.length = paths.length := by
  induction paths generalizing i rows with
  | nil =>
    simp only [collectFrom] at h
    cases h
    rfl
  | cons path rest ih =>
    simp only [collectFrom] at h
    cases hpf : processFile fs i path with
    | error e => rw [hpf] at h; cases h
    | ok row =>
      rw [hpf] at h
      cases hcr : collectFrom fs (i + 1) rest with
      | error e => rw [hcr] at h; cases h
      | ok rows' =>
        rw [hcr] at h
        cases h
        simp [ih (i + 1) rows' hcr]

theorem collectFrom_getD (fs : FileSys) (i : Nat) (paths : List Str)
    (rows : List (Str × Str)) (h : collectFrom fs i paths = .ok rows)
    (j : Nat) (hj : j < paths.length) :
    processFile fs (i + j) (paths.getD j []) = .ok (rows.getD j ([], [])) := by
  induction paths generalizing i rows j with
  | nil => simp at hj
  | cons path rest ih =>
    simp only [collectFrom] at h
    cases hpf : processFile fs i path with
    | error e => rw [hpf] at h; cases h
    | ok row =>
      rw [hpf] at h
      cases hcr : collectFrom fs (i + 1) rest with
      | error e => rw [hcr] at h; cases h
      | ok rows' =>
        rw [hcr] at h
        cases h
        cases j with
        | zero => simpa using hpf
        | succ j =>
          have harith : i + (j + 1) = (i + 1) + j := by omega
          rw [List.getD_cons_succ, List.getD_cons_succ, harith]
          exact ih (i + 1) rows' hcr j (by simpa using hj)

theorem collectFrom_isOk (fs : FileSys) (i : Nat) (paths : List Str)
    (h : ∀ j, j < paths.length → fs (paths.getD j []) ≠ .readErr) :
    ∃ rows, collectFrom fs i paths = .ok rows := by
  induction paths generalizing i with
  | nil => exact ⟨[], rfl⟩
  | cons path rest ih =>
    have h0 : fs path ≠ .readErr := by simpa using h 0 (by simp)
    have hrow : ∃ row, processFile fs i path = .ok row := by
      unfold processFile
      cases hfs : fs path with
      | ok c => exact ⟨_, rfl⟩
      | notFound => exact ⟨_, rfl⟩
      | readErr => exact absurd hfs h0
    obtain ⟨row, hrow⟩ := hrow
    obtain ⟨rows', hrows'⟩ := ih (i + 1) (fun j hj => by
      simpa using h (j + 1) (by simpa using hj))
    exact ⟨row :: rows', by simp only [collectFrom, hrow, hrows']⟩

theorem getD_map_fst (rows : List (Str × Str)) (j : Nat) (hj : j < rows.length) :
    (rows.map Prod.fst).getD j [] = (rows.getD j ([], [])).1 := by
  rw [List.getD_eq_getD_get?, List.getD_eq_getD_get?, List.get?_map, List.get?_eq_get hj]
  rfl

theorem getD_map_snd (rows : List (Str × Str)) (L : List Str) (j : Nat)
    (hj : j < rows.length) :
    (rows.map Prod.snd ++ L).getD j [] = (rows.getD j ([], [])).2 := by
  rw [List.getD_append _ _ _ _ (by simpa using hj)]
  rw [List.getD_eq_getD_get?, List.getD_eq_getD_get?, List.get?_map, List.get?_eq_get hj]
  rfl

/-! ## The accumulation loops as joins of indexed pieces -/

theorem specDeclsAux_eq_join (i : Nat) (ss : List Str) :
    specDeclsAux i ss
      = (((List.range' i ss.length).zip ss).map (fun p => declPiece p.1 p.2)).join := by
  induction ss generalizing i with
  | nil => rfl
  | cons s rest ih => exact congrArg (declPiece i s ++ ·) (ih (i + 1))

theorem visDivsAux_eq_join (i : Nat) (ts : List Str) :
    visDivsAux i ts
      = (((List.range' i ts.length).zip ts).map (fun p => visDivPiece p.1 p.2)).join := by
  induction ts generalizing i with
  | nil => rfl
  | cons t rest ih => exact congrArg (visDivPiece i t ++ ·) (ih (i + 1))

theorem renderAux_eq_join (i k : Nat) :
    renderAux i k = ((List.range' i k).map renderPiece).join := by
  induction k generalizing i with
  | zero => rfl
  | succ k ih => exact congrArg (renderPiece i ++ ·) (ih (i + 1))

theorem collectFrom_fst_ne_nil (fs : FileSys) (i : Nat) (paths : List Str)
    (rows : List (Str × Str)) (h : collectFrom fs i paths = .ok rows) :
    ∀ r ∈ rows, r.1 ≠ [] := by
  induction paths generalizing i rows with
  | nil =>
    simp only [collectFrom] at h
    cases h
    simp
  | cons path rest ih =>
    simp only [collectFrom] at h
    cases hpf : processFile fs i path with
    | error e => rw [hpf] at h; cases h
    | ok row =>
      rw [hpf] at h
      cases hcr : collectFrom fs (i + 1) rest with
      | error e => rw [hcr] at h; cases h
      | ok rows' =>
        rw [hcr] at h
        cases h
        intro r hr
        rcases List.mem_cons.mp hr with rfl | hmem
        · cases hfs : fs path with
          | ok c =>
            simp only [processFile, hfs] at hpf
            cases hpf
            exact extract_spec_ne_nil c
          | notFound =>
            simp only [processFile, hfs] at hpf
            cases hpf
            simp
          | readErr =>
            simp only [processFile, hfs] at hpf
            exact Except.noConfusion hpf
        · exact ih (i + 1) rows' hcr r hmem

theorem merge_ok_of_collect (fs : FileSys) (paths : List Str) (op : Str)
    (t : Option (List Str)) (rows : List (Str × Str))
    (h : collectFrom fs 0 paths = .ok rows) :
    merge_html_files fs paths op t
      = .ok (merged_html (effectiveTitles (t.getD defaultTitles) paths.length)
               (rows.map Prod.fst),
             rows.map Prod.snd ++ [summaryLine paths.length op]) := by
  cases t with
  | none => simp [merge_html_files, h]
  | some ts => simp [merge_html_files, h]

/-! ## The claims -/

/-- C1: for every input text containing the assignment pattern
`var spec = {...};`, `extract_spec` returns exactly the text captured
between the delimiters of the first such occurrence, byte-for-byte
unmodified.  The input is presented as a decomposition
`a ++ specPat ++ m ++ specTerm ++ b`; the hypotheses state that this
decomposition marks the first occurrence of the pattern head and that the
captured body `m` contains no terminator (i.e. it is the non-greedy match);
the conclusion returns the brace-delimited captured group containing `m`
verbatim. -/
theorem spec2proof_C1 (a m b : Str)
    (h1 : ∀ i, i < a.length → ¬ specPat <+: (a ++ specPat ++ m ++ specTerm ++ b).drop i)
    (h2 : ∀ i, i < m.length → ¬ specTerm <+: (m ++ specTerm ++ b).drop i) :
    extract_spec (a ++ specPat ++ m ++ specTerm ++ b) = '\x7b' :: (m ++ ['\x7d']) := by
  have hassoc2 : a ++ specPat ++ m ++ specTerm ++ b
      = (a ++ specPat) ++ (m ++ (specTerm ++ b)) := by
    simp [List.append_assoc]
  have hdrop : (a ++ specPat ++ m ++ specTerm ++ b).drop (a.length + specPat.length)
      = m ++ (specTerm ++ b) := by
    rw [hassoc2, ← List.length_append a specPat, List.drop_left]
  have hf1 : findSub specPat (a ++ specPat ++ m ++ specTerm ++ b) = some a.length := by
    apply findSub_eq_some
    · have hx : (a ++ specPat ++ m ++ specTerm ++ b).drop a.length
          = specPat ++ (m ++ (specTerm ++ b)) := by
        rw [show a ++ specPat ++ m ++ specTerm ++ b
            = a ++ (specPat ++ (m ++ (specTerm ++ b))) by simp [List.append_assoc],
          List.drop_left]
      rw [hx]
      exact List.prefix_append _ _
    · exact h1
  have hf2 : findSub specTerm
      ((a ++ specPat ++ m ++ specTerm ++ b).drop (a.length + specPat.length))
      = some m.length := by
    rw [hdrop]
    apply findSub_eq_some
    · rw [show (m ++ (specTerm ++ b)).drop m.length = specTerm ++ b from
        List.drop_left m _]
      exact List.prefix_append _ _
    · intro i hi
      simpa [List.append_assoc] using h2 i hi
  simp only [extract_spec, hf1, hf2]
  rw [hdrop, List.take_left]

/-- C1 witness: the theorem applied at a concrete document. -/
theorem spec2proof_C1_witness :
    extract_spec ("<p>".toList ++ specPat ++ "\"a\": 1".toList ++ specTerm ++ "</p>".toList)
      = '\x7b' :: ("\"a\": 1".toList ++ ['\x7d']) :=
  spec2proof_C1 _ _ _ (by decide) (by decide)

/-- C2: for every input text in which the extraction pattern does not occur,
`extract_spec` returns the two-character text `{}` rather than failing; the
composer's per-file step records that value with the ordinary success line
(not a warning); and every recorded specification is non-empty. -/
theorem spec2proof_C2 (text : Str)
    (h : ¬ ∃ a m b : Str, text = a ++ specPat ++ m ++ specTerm ++ b) :
    extract_spec text = "\x7b\x7d".toList
    ∧ (∀ fs i path, fs path = .ok text →
        processFile fs i path = .ok ("\x7b\x7d".toList, successLine i path)
        ∧ successLine i path ≠ warnLine path)
    ∧ (∀ fs i paths rows, collectFrom fs i paths = .ok rows → ∀ r ∈ rows, r.1 ≠ []) := by
  have hmain : extract_spec text = "\x7b\x7d".toList := by
    cases he1 : findSub specPat text with
    | none => simp only [extract_spec, he1]
    | some p =>
      cases he2 : findSub specTerm (text.drop (p + specPat.length)) with
      | none => simp only [extract_spec, he1, he2]
      | some q =>
        exfalso
        apply h
        obtain ⟨r1, hr1⟩ := findSub_some _ _ _ he1
        have htext : text = text.take p ++ (specPat ++ r1) := by
          rw [hr1, List.take_append_drop]
        have hd : text.drop (p + specPat.length) = r1 := by
          rw [← List.drop_drop, ← hr1, List.drop_left]
        obtain ⟨r2, hr2⟩ := findSub_some _ _ _ he2
        rw [hd] at hr2
        have hsplit : r1 = r1.take q ++ (specTerm ++ r2) := by
          rw [hr2, List.take_append_drop]
        refine ⟨text.take p, r1.take q, r2, ?_⟩
        conv_lhs => rw [htext, hsplit]
        simp [List.append_assoc]
  refine ⟨hmain, ?_, ?_⟩
  · intro fs i path hfs
    constructor
    · simp only [processFile, hfs, hmain]
    · intro heq
      have hs : (successLine i path).getD 0 ' ' = '✓' := rfl
      have hw : (warnLine path).getD 0 ' ' = '✗' := rfl
      rw [heq] at hs
      rw [hs] at hw
      exact absurd hw (by decide)
  · exact fun fs i paths rows hrows => collectFrom_fst_ne_nil fs i paths rows hrows

/-- C2 witness: the theorem applied at a concrete pattern-free text. -/
theorem spec2proof_C2_witness : extract_spec ("hello".toList) = "\x7b\x7d".toList := by
  have h : ¬ ∃ a m b : Str, "hello".toList = a ++ specPat ++ m ++ specTerm ++ b := by
    rintro ⟨a, m, b, hab⟩
    have hlen := congrArg List.length hab
    simp only [List.length_append] at hlen
    have h5 : ("hello".toList).length = 5 := rfl
    have h12 : specPat.length = 12 := rfl
    have ht2 : specTerm.length = 2 := rfl
    rw [h5, h12, ht2] at hlen
    omega
  exact (spec2proof_C2 ("hello".toList) h).1

/-- C3 counterexample: the synthesized padding title is not the bare string
`Visualization 1`; the code prepends an emoji and a space
(`📊 Visualization 1`), so the claim as stated fails. -/
theorem spec2proof_C3_counterexample :
    (effectiveTitles [] 1).getD 0 [] ≠ "Visualization 1".toList := by decide

/-- C3 (amended): for N documents and M supplied titles, the effective
title list has length exactly N; the first min(M,N) supplied titles are
used unchanged; and positions beyond M hold exactly the synthesized title
`📊 Visualization <position>` (1-based position). -/
theorem spec2proof_C3_amended (ts : List Str) (n : Nat) :
    (effectiveTitles ts n).length = n
    ∧ (∀ i, i < ts.length → i < n → (effectiveTitles ts n).getD i [] = ts.getD i [])
    ∧ (∀ i, ts.length ≤ i → i < n → (effectiveTitles ts n).getD i [] = visLabel (i + 1)) := by
  refine ⟨effectiveTitles_length ts n, ?_, ?_⟩
  · intro i hits hin
    unfold effectiveTitles padTitles
    rw [getD_take _ _ _ hin, padTitlesGo_getD_lt _ _ _ hits]
  · intro i hge hin
    unfold effectiveTitles padTitles
    rw [getD_take _ _ _ hin, padTitlesGo_getD_ge _ _ _ hge (by omega)]

/-- C3 witness: the amended theorem applied at one supplied title and two
documents. -/
theorem spec2proof_C3_witness :
    (effectiveTitles ["Overview".toList] 2).getD 1 [] = visLabel 2 :=
  (spec2proof_C3_amended ["Overview".toList] 2).2.2 1 (by decide) (by decide)

/-- C4 counterexample: a document that exists but is unreadable (modelled
as a read exception other than `FileNotFoundError`, e.g. a permission
error) is not handled: the run aborts with a propagated exception instead
of recording a placeholder, so the claim's "missing or unreadable" is too
strong. -/
theorem spec2proof_C4_counterexample :
    merge_html_files (fun _ => ReadResult.readErr) ["a.html".toList] ("o.html".toList) none
      = .error () := rfl

/-- C4 (amended): a document at position k that is missing
(`FileNotFoundError`) is handled recoverably: the run does not abort (for
either the actual file system or the variant where document k is
readable), the composer records the placeholder `{}` and the warning line
naming the path at position k, and every position whose path differs from
path k records exactly the same (spec, printed line) pair as in the
readable variant.  Reads that fail with any other exception are not caught
(see the counterexample). -/
theorem spec2proof_C4_amended (fs fs' : FileSys) (paths : List Str) (op : Str)
    (t : Option (List Str)) (k : Nat) (c : Str)
    (hk : k < paths.length)
    (hmiss : fs (paths.getD k []) = .notFound)
    (hfix : fs' (paths.getD k []) = .ok c)
    (hagree : ∀ p, p ≠ paths.getD k [] → fs' p = fs p)
    (hnoerr : ∀ j, j < paths.length → fs (paths.getD j []) ≠ .readErr) :
    (∃ out logs, merge_html_files fs paths op t = .ok (out, logs))
    ∧ (∃ out' logs', merge_html_files fs' paths op t = .ok (out', logs'))
    ∧ (∀ rows, collectFrom fs 0 paths = .ok rows →
        rows.getD k ([], []) = ("\x7b\x7d".toList, warnLine (paths.getD k [])))
    ∧ (∀ rows rows', collectFrom fs 0 paths = .ok rows →
        collectFrom fs' 0 paths = .ok rows' →
        ∀ j, j < paths.length → paths.getD j [] ≠ paths.getD k [] →
          rows.getD j ([], []) = rows'.getD j ([], [])) := by
  have hnoerr' : ∀ j, j < paths.length → fs' (paths.getD j []) ≠ .readErr := by
    intro j hj
    by_cases hpj : paths.getD j [] = paths.getD k []
    · rw [hpj, hfix]
      simp
    · rw [hagree _ hpj]
      exact hnoerr j hj
  obtain ⟨rows₀, hrows₀⟩ := collectFrom_isOk fs 0 paths hnoerr
  obtain ⟨rows₁, hrows₁⟩ := collectFrom_isOk fs' 0 paths hnoerr'
  refine ⟨⟨_, _, merge_ok_of_collect fs paths op t rows₀ hrows₀⟩,
    ⟨_, _, merge_ok_of_collect fs' paths op t rows₁ hrows₁⟩, ?_, ?_⟩
  · intro rows hrows
    have hpt := collectFrom_getD fs 0 paths rows hrows k hk
    rw [Nat.zero_add] at hpt
    simp only [processFile, hmiss] at hpt
    exact (Except.ok.inj hpt).symm
  · intro rows rows' hr hr' j hj hne
    have h1 := collectFrom_getD fs 0 paths rows hr j hj
    have h2 := collectFrom_getD fs' 0 paths rows' hr' j hj
    rw [Nat.zero_add] at h1 h2
    have hsame : processFile fs' j (paths.getD j []) = processFile fs j (paths.getD j []) := by
      unfold processFile
      rw [hagree _ hne]
    rw [hsame] at h2
    exact Except.ok.inj (h1.symm.trans h2)

/-- C4 witness: the amended theorem applied to a two-document run whose
second document is missing. -/
theorem spec2proof_C4_witness :
    ∃ out logs, merge_html_files fs4a paths4 ("o.html".toList) none = .ok (out, logs) :=
  (spec2proof_C4_amended fs4a fs4b paths4 ("o.html".toList) none 1 doc4
    (by decide) (by decide) (by decide)
    (by
      intro p hp
      have hb : p ≠ "b.html".toList := hp
      simp only [fs4a, fs4b, if_neg hb])
    (by decide)).1

/-- C5: every successful run over N paths produces an output document that
decomposes into the fixed chrome with exactly N visualization blocks,
exactly N specification declarations and exactly N render invocations,
each sequence indexed 0..N-1 (displayed 1..N) in path order; and the
specification/log pair at position j is exactly what the per-file step
produces for path j (so each declaration binds the extracted specification
verbatim). -/
theorem spec2proof_C5 (fs : FileSys) (paths : List Str) (op : Str)
    (t : Option (List Str)) (out : Str) (logs : List Str)
    (h : merge_html_files fs paths op t = .ok (out, logs)) :
    ∃ specs titlesN : List Str,
      specs.length = paths.length
      ∧ titlesN.length = paths.length
      ∧ (∀ j, j < paths.length →
          processFile fs j (paths.getD j []) = .ok (specs.getD j [], logs.getD j []))
      ∧ out = htmlPartA ++ vegaEmbedStyles paths.length ++ htmlPartB
            ++ vegaEmbedDetails paths.length ++ htmlPartC
            ++ (((List.range' 0 paths.length).zip titlesN).map
                  (fun p => visDivPiece p.1 p.2)).join
            ++ htmlPartD
            ++ (((List.range' 0 paths.length).zip specs).map
                  (fun p => declPiece p.1 p.2)).join
            ++ htmlPartE
            ++ ((List.range' 0 paths.length).map renderPiece).join
            ++ htmlPartF := by
  cases hcol : collectFrom fs 0 paths with
  | error e =>
    have hmerr : merge_html_files fs paths op t = .error e := by
      cases t <;> simp [merge_html_files, hcol]
    rw [hmerr] at h
    exact Except.noConfusion h
  | ok rows =>
    have hm := merge_ok_of_collect fs paths op t rows hcol
    rw [h] at hm
    have hpair := Except.ok.inj hm
    have hout : out = merged_html (effectiveTitles (t.getD defaultTitles) paths.length)
        (rows.map Prod.fst) := congrArg Prod.fst hpair
    have hlogs : logs = rows.map Prod.snd ++ [summaryLine paths.length op] :=
      congrArg Prod.snd hpair
    have hrlen : rows.length = paths.length := collectFrom_length fs 0 paths rows hcol
    have hslen : (rows.map Prod.fst).length = paths.length := by simpa using hrlen
    refine ⟨rows.map Prod.fst, effectiveTitles (t.getD defaultTitles) paths.length,
      hslen, effectiveTitles_length _ _, ?_, ?_⟩
    · intro j hj
      have hpt := collectFrom_getD fs 0 paths rows hcol j hj
      rw [Nat.zero_add] at hpt
      have hjr : j < rows.length := by rw [hrlen]; exact hj
      rw [getD_map_fst rows j hjr, hlogs, getD_map_snd rows _ j hjr, Prod.mk.eta]
      exact hpt
    · rw [hout]
      simp only [merged_html]
      rw [hslen, visDivsAux_eq_join, specDeclsAux_eq_join, renderAux_eq_join,
        effectiveTitles_length, hslen]

/-- C5 witness: the theorem applied to a one-document run (the document is
missing, which still yields a successful run with the placeholder
specification). -/
theorem spec2proof_C5_witness :
    ∃ specs titlesN : List Str,
      specs.length = paths5.length
      ∧ titlesN.length = paths5.length
      ∧ (∀ j, j < paths5.length →
          processFile fs5 j (paths5.getD j []) = .ok (specs.getD j [], logs5.getD j []))
      ∧ out5 = htmlPartA ++ vegaEmbedStyles paths5.length ++ htmlPartB
            ++ vegaEmbedDetails paths5.length ++ htmlPartC
            ++ (((List.range' 0 paths5.length).zip titlesN).map
                  (fun p => visDivPiece p.1 p.2)).join
            ++ htmlPartD
            ++ (((List.range' 0 paths5.length).zip specs).map
                  (fun p => declPiece p.1 p.2)).join
            ++ htmlPartE
            ++ ((List.range' 0 paths5.length).map renderPiece).join
            ++ htmlPartF :=
  spec2proof_C5 fs5 paths5 ("merged.html".toList) none out5 logs5 rfl

/-- C6: the extraction match is non-greedy up to the first terminator: on
`doc6`, whose embedded object literal contains the sequence terminator
inside a nested string before its true end, `extract_spec` returns only the
truncated text up to that first terminator, not the full literal. -/
theorem spec2proof_C6 :
    extract_spec doc6 = "\x7b\"a\": \"x\x7d".toList
    ∧ extract_spec doc6 ≠ "\x7b\"a\": \"x\x7d;y\"\x7d".toList := by
  refine ⟨by decide, by decide⟩

/-- C7: composition is deterministic: two runs with identical file
contents, identical path lists, identical titles and the same output path
produce identical results (output text and printed lines). -/
theorem spec2proof_C7 (fs1 fs2 : FileSys) (paths1 paths2 : List Str)
    (op1 op2 : Str) (t1 t2 : Option (List Str))
    (hfs : ∀ p, fs1 p = fs2 p) (hpaths : paths1 = paths2) (hop : op1 = op2)
    (ht : t1 = t2) :
    merge_html_files fs1 paths1 op1 t1 = merge_html_files fs2 paths2 op2 t2 := by
  have hfs' : fs1 = fs2 := funext hfs
  rw [hfs', hpaths, hop, ht]

/-- C7 witness: the theorem applied to two syntactically different but
pointwise equal file systems. -/
theorem spec2proof_C7_witness :
    merge_html_files fs7a ["a.html".toList] ("o.html".toList) none
      = merge_html_files fs7b ["a.html".toList] ("o.html".toList) none :=
  spec2proof_C7 fs7a fs7b _ _ _ _ _ _ (fun p => by simp [fs7a, fs7b]) rfl rfl rfl

/-- C8: the round-trip scenario: composing the two documents containing
`var spec = {"a": 1};` and `var spec = {"b": [1,2,3]};` with default titles
yields an output that contains the declarations `var spec1 = {"a": 1};`
then `var spec2 = {"b": [1,2,3]};` and then the render invocations wiring
`#vis1` to `spec1` and `#vis2` to `spec2`, in that order. -/
theorem spec2proof_C8 :
    ∃ A B C D E : Str,
      out8 = A ++ "var spec1 = \x7b\"a\": 1\x7d;".toList
               ++ B ++ "var spec2 = \x7b\"b\": [1,2,3]\x7d;".toList
               ++ C ++ "vegaEmbed(\"#vis1\", spec1, embedOpt)".toList
               ++ D ++ "vegaEmbed(\"#vis2\", spec2, embedOpt)".toList
               ++ E := by
  have hcol : collectFrom fs8 0 paths8
      = .ok [("\x7b\"a\": 1\x7d".toList, successLine 0 ("chart1.html".toList)),
             ("\x7b\"b\": [1,2,3]\x7d".toList, successLine 1 ("chart2.html".toList))] := rfl
  have hmerge := merge_ok_of_collect fs8 paths8 ("index.html".toList) none _ hcol
  have hout8 : out8 = merged_html (effectiveTitles defaultTitles 2)
      ["\x7b\"a\": 1\x7d".toList, "\x7b\"b\": [1,2,3]\x7d".toList] := by
    unfold out8
    rw [hmerge]
    rfl
  have hlhs : merged_html (effectiveTitles defaultTitles 2)
      ["\x7b\"a\": 1\x7d".toList, "\x7b\"b\": [1,2,3]\x7d".toList]
      = htmlPartA ++ vegaEmbedStyles 2 ++ htmlPartB ++ vegaEmbedDetails 2 ++ htmlPartC
        ++ visDivsAux 0 (effectiveTitles defaultTitles 2) ++ htmlPartD
        ++ (declPiece 0 ("\x7b\"a\": 1\x7d".toList)
             ++ (declPiece 1 ("\x7b\"b\": [1,2,3]\x7d".toList) ++ []))
        ++ htmlPartE ++ (renderPiece 0 ++ (renderPiece 1 ++ []))
        ++ htmlPartF := rfl
  have hd1 : declPiece 0 ("\x7b\"a\": 1\x7d".toList)
      = "      ".toList ++ ("var spec1 = \x7b\"a\": 1\x7d;".toList ++ "\n".toList) := by decide
  have hd2 : declPiece 1 ("\x7b\"b\": [1,2,3]\x7d".toList)
      = "      ".toList ++ ("var spec2 = \x7b\"b\": [1,2,3]\x7d;".toList ++ "\n".toList) := by
    decide
  have hr1 : renderPiece 0
      = "\n      // 渲染第1个图表\n      const el1 = document.getElementById(\x27vis1\x27);\n      ".toList
        ++ ("vegaEmbed(\"#vis1\", spec1, embedOpt)".toList
             ++ "\n        .catch(error => showError(el1, error));\n      ".toList) := by
    decide
  have hr2 : renderPiece 1
      = "\n      // 渲染第2个图表\n      const el2 = document.getElementById(\x27vis2\x27);\n      ".toList
        ++ ("vegaEmbed(\"#vis2\", spec2, embedOpt)".toList
             ++ "\n        .catch(error => showError(el2, error));\n      ".toList) := by
    decide
  refine ⟨htmlPartA ++ vegaEmbedStyles 2 ++ htmlPartB ++ vegaEmbedDetails 2 ++ htmlPartC
      ++ visDivsAux 0 (effectiveTitles defaultTitles 2) ++ htmlPartD ++ "      ".toList,
    "\n".toList ++ "      ".toList,
    "\n".toList ++ htmlPartE
      ++ "\n      // 渲染第1个图表\n      const el1 = document.getElementById(\x27vis1\x27);\n      ".toList,
    "\n        .catch(error => showError(el1, error));\n      ".toList
      ++ "\n      // 渲染第2个图表\n      const el2 = document.getElementById(\x27vis2\x27);\n      ".toList,
    "\n        .catch(error => showError(el2, error));\n      ".toList ++ htmlPartF, ?_⟩
  rw [hout8, hlhs, hd1, hd2, hr1, hr2]
  simp only [List.append_nil, List.append_assoc]

/-- C9: a run over zero documents still produces an output document (the
fixed chrome with all generated fragments empty: no visualization blocks,
no declarations, no render invocations), and prints exactly one line: the
summary reporting 0 documents merged to the output path. -/
theorem spec2proof_C9 (fs : FileSys) (op : Str) (t : Option (List Str)) :
    merge_html_files fs [] op t
      = .ok (htmlPartA ++ vegaEmbedStyles 0 ++ htmlPartB ++ vegaEmbedDetails 0
               ++ htmlPartC ++ visDivsAux 0 [] ++ htmlPartD ++ specDeclsAux 0 []
               ++ htmlPartE ++ renderAux 0 0 ++ htmlPartF,
             [summaryLine 0 op])
    ∧ vegaEmbedStyles 0 = [] ∧ vegaEmbedDetails 0 = [] ∧ visDivsAux 0 [] = []
    ∧ specDeclsAux 0 [] = [] ∧ renderAux 0 0 = []
    ∧ summaryLine 0 op = "\n✅ 成功合并 0 个HTML文件到: ".toList ++ op := by
  exact ⟨rfl, rfl, rfl, rfl, rfl, rfl, rfl⟩

/-- C10: the title padding acts on the caller's list object in place
(modelled by returning the list's final state): the caller's list after the
call extends the supplied list, its length is at least the number of
documents, and when the supplied list was shorter it has been genuinely
mutated (length exactly N, different from the supplied value). -/
theorem spec2proof_C10 (ts : List Str) (paths : List Str) :
    ts <+: titlesAfterCall ts paths
    ∧ paths.length ≤ (titlesAfterCall ts paths).length
    ∧ (ts.length < paths.length →
        (titlesAfterCall ts paths).length = paths.length ∧ titlesAfterCall ts paths ≠ ts) := by
  refine ⟨padTitlesGo_isPrefix _ _, ?_, ?_⟩
  · unfold titlesAfterCall padTitles
    rw [padTitlesGo_length]
    omega
  · intro hlt
    constructor
    · unfold titlesAfterCall padTitles
      rw [padTitlesGo_length]
      omega
    · intro heq
      have hl := congrArg List.length heq
      unfold titlesAfterCall padTitles at hl
      rw [padTitlesGo_length] at hl
      omega

/-- C10 witness: the theorem applied to an empty supplied list and one
document. -/
theorem spec2proof_C10_witness :
    (titlesAfterCall [] ["a.html".toList]).length = 1
    ∧ titlesAfterCall [] ["a.html".toList] ≠ [] :=
  (spec2proof_C10 [] ["a.html".toList]).2.2 (by decide)

end Combine
